import Mathlib

/-!
Shallow embedding of the bias-nomad job-recommendation core.

The embedded code is `backend/app/services/tfidf_recommender.py`
(`combine_job_text`, `combine_user_profile_text`,
`compute_tfidf_recommendations`), the API route
`backend/app/routes/ml_routes.py` (`recommend_jobs`) and the request
schema `backend/app/utils/schemas.py` (`RecommendationRequest`).

The recommender delegates to scikit-learn:
`TfidfVectorizer(max_features=5000, ngram_range=(1, 2), min_df=1,
stop_words='english', lowercase=True, strip_accents='unicode')`,
`fit_transform`, and `sklearn.metrics.pairwise.cosine_similarity`.
Those library calls are embedded here following scikit-learn's documented
and well-known semantics:

* tokenization with the default `token_pattern r"(?u)\b\w\w+\b"`:
  maximal runs of word characters, keeping runs of length at least 2,
  after lower-casing (`strip_accents='unicode'` is the identity on the
  ASCII texts modelled here, so accent folding is not elaborated);
* the built-in `ENGLISH_STOP_WORDS` list; stop words are removed from
  the unigram stream before bigrams are formed;
* vocabulary = all distinct terms, sorted lexicographically, capped at
  the `max_features` terms with the highest total count in the corpus;
* smoothed idf `ln((1 + n_docs) / (1 + df)) + 1`, tf = raw count,
  rows L2-normalised (rows of zero norm are left unchanged, which is
  scikit-learn's `normalize` behaviour);
* `fit_transform` raises
  `ValueError("empty vocabulary; perhaps the documents only contain stop
  words")` when no term survives tokenization, embedded as `Except.error`;
* `cosine_similarity` L2-normalises both arguments (zero rows stay zero)
  and takes dot products.

Python's `list.sort(key=..., reverse=True)` is a stable sort with a
single descending key; a stable sort for a total preorder is unique as a
function, so it is embedded with `List.insertionSort` on the relation
"score at least as large", which Mathlib's `insertionSort` implements
stably.  Python machine floats are idealised as real numbers.
-/

/-- Python `str.strip()` whitespace test (ASCII whitespace). -/
def isPySpace (c : Char) : Bool :=
  c == ' ' || c == '\t' || c == '\n' || c == '\r' || c == Char.ofNat 11 || c == Char.ofNat 12

/-- Python `str.strip()`: remove leading and trailing whitespace. -/
def pyStrip (s : String) : String :=
  String.mk (((s.data.dropWhile isPySpace).reverse.dropWhile isPySpace).reverse)

/-- Python slicing `l[:n]`: for nonnegative `n` the first `n` elements,
for negative `n` all but the last `|n|` elements. -/
def pySlice {α : Type} (n : Int) (l : List α) : List α :=
  if n < 0 then l.take (l.length - n.natAbs) else l.take n.toNat

/-- Code-point comparison of characters, as Python compares strings. -/
def charLt (a b : Char) : Bool := a.toNat < b.toNat

/-- Lexicographic code-point order on character lists. -/
def strLtChars : List Char → List Char → Bool
  | [], [] => false
  | [], _ :: _ => true
  | _ :: _, [] => false
  | a :: as, b :: bs => if a == b then strLtChars as bs else charLt a b

/-- Lexicographic `≤` on strings (Python's string order, used by
`sorted(vocabulary)` inside `CountVectorizer`). -/
def strLe (a b : String) : Bool := !(strLtChars b.data a.data)

/-- Sort a list of strings lexicographically. -/
def sortStrings (l : List String) : List String :=
  List.insertionSort (fun a b => strLe a b = true) l

/-- The `users` table row (`app/database/models.py`, class `User`).
Timestamps are store-managed and never read by the embedded code, so they
are omitted.  Fields that the recommender guards with `or ""` are
`Option`-valued, matching nullable columns and SQLAlchemy's `None`. -/
structure User where
  id : Int
  email : String
  full_name : Option String
  has_disability : Bool
  disability_type : Option String
  accessibility_needs : Option String
  deriving DecidableEq

/-- The `jobs` table row (`app/database/models.py`, class `Job`).
Timestamps omitted as for `User`; `Float` salary bounds idealised as
rationals (no claim depends on them). -/
structure Job where
  id : Int
  title : Option String
  company : String
  description : Option String
  skills : Option String
  location : String
  is_remote : Bool
  is_inclusive : Bool
  accessibility_features : Option String
  salary_min : Option ℚ
  salary_max : Option ℚ
  application_url : Option String
  deriving DecidableEq

/-- Python `x or ""` on an optional string: `None` becomes `""`
(and `""` stays `""`, so `Option.getD` is exact). -/
def orEmpty (s : Option String) : String := s.getD ""

/-- `combine_job_text` (tfidf_recommender.py line 18): the f-string
`f"{title} {skills} {description}".strip()` after `or ""` guards. -/
def combine_job_text (job : Job) : String :=
  pyStrip (orEmpty job.title ++ " " ++ orEmpty job.skills ++ " " ++ orEmpty job.description)

/-- `combine_user_profile_text` (tfidf_recommender.py line 42): the
f-string `f"{full_name} {disability_type} {accessibility_needs}".strip()`
after `or ""` guards. -/
def combine_user_profile_text (user : User) : String :=
  pyStrip (orEmpty user.full_name ++ " " ++ orEmpty user.disability_type ++ " " ++
    orEmpty user.accessibility_needs)

/-- The spec's wording for the composed job text: the plain
space-separated concatenation, absent fields as empty strings, with no
whitespace stripping.  Used only to compare the spec sentence with the
code. -/
def spec_job_concat (job : Job) : String :=
  orEmpty job.title ++ " " ++ orEmpty job.skills ++ " " ++ orEmpty job.description

/-- The spec's wording for the composed user text, analogous to
`spec_job_concat`. -/
def spec_user_concat (user : User) : String :=
  orEmpty user.full_name ++ " " ++ orEmpty user.disability_type ++ " " ++
    orEmpty user.accessibility_needs

/-- Word characters of the default scikit-learn token pattern `\w`
(ASCII fragment: letters, digits, underscore). -/
def isWordChar (c : Char) : Bool := c.isAlphanum || c == '_'

/-- Maximal runs of word characters in a character list. -/
def wordRuns : List Char → List (List Char)
  | [] => []
  | [c] => if isWordChar c then [[c]] else []
  | c :: d :: cs =>
    if isWordChar c then
      if isWordChar d then
        match wordRuns (d :: cs) with
        | [] => [[c]]
        | r :: rs => (c :: r) :: rs
      else [c] :: wordRuns cs
    else wordRuns (d :: cs)

/-- scikit-learn tokenization: lower-case, then keep maximal word-character
runs of length at least 2 (token pattern `(?u)\b\w\w+\b`). -/
def tokenize (s : String) : List String :=
  ((wordRuns (s.data.map Char.toLower)).filter (fun r => 2 ≤ r.length)).map String.mk

/-- scikit-learn's built-in `ENGLISH_STOP_WORDS` list. -/
def english_stop_words : List String :=
  ["a", "about", "above", "across", "after", "afterwards", "again", "against",
   "all", "almost", "alone", "along", "already", "also", "although", "always",
   "am", "among", "amongst", "amoungst", "amount", "an", "and", "another",
   "any", "anyhow", "anyone", "anything", "anyway", "anywhere", "are",
   "around", "as", "at", "back", "be", "became", "because", "become",
   "becomes", "becoming", "been", "before", "beforehand", "behind", "being",
   "below", "beside", "besides", "between", "beyond", "bill", "both",
   "bottom", "but", "by", "call", "can", "cannot", "cant", "co", "con",
   "could", "couldnt", "cry", "de", "describe", "detail", "do", "done",
   "down", "due", "during", "each", "eg", "eight", "either", "eleven",
   "else", "elsewhere", "empty", "enough", "etc", "even", "ever", "every",
   "everyone", "everything", "everywhere", "except", "few", "fifteen",
   "fifty", "fill", "find", "fire", "first", "five", "for", "former",
   "formerly", "forty", "found", "four", "from", "front", "full", "further",
   "get", "give", "go", "had", "has", "hasnt", "have", "he", "hence", "her",
   "here", "hereafter", "hereby", "herein", "hereupon", "hers", "herself",
   "him", "himself", "his", "how", "however", "hundred", "i", "ie", "if",
   "in", "inc", "indeed", "interest", "into", "is", "it", "its", "itself",
   "keep", "last", "latter", "latterly", "least", "less", "ltd", "made",
   "many", "may", "me", "meanwhile", "might", "mill", "mine", "more",
   "moreover", "most", "mostly", "move", "much", "must", "my", "myself",
   "name", "namely", "neither", "never", "nevertheless", "next", "nine",
   "no", "nobody", "none", "noone", "nor", "not", "nothing", "now",
   "nowhere", "of", "off", "often", "on", "once", "one", "only", "onto",
   "or", "other", "others", "otherwise", "our", "ours", "ourselves", "out",
   "over", "own", "part", "per", "perhaps", "please", "put", "rather", "re",
   "same", "see", "seem", "seemed", "seeming", "seems", "serious", "several",
   "she", "should", "show", "side", "since", "sincere", "six", "sixty",
   "so", "some", "somehow", "someone", "something", "sometime", "sometimes",
   "somewhere", "still", "such", "system", "take", "ten", "than", "that",
   "the", "their", "them", "themselves", "then", "thence", "there",
   "thereafter", "thereby", "therefore", "therein", "thereupon", "these",
   "they", "thick", "thin", "third", "this", "those", "though", "three",
   "through", "throughout", "thru", "thus", "to", "together", "too", "top",
   "toward", "towards", "twelve", "twenty", "two", "un", "under", "until",
   "up", "upon", "us", "very", "via", "was", "we", "well", "were", "what",
   "whatever", "when", "whence", "whenever", "where", "whereafter",
   "whereas", "whereby", "wherein", "whereupon", "wherever", "whether",
   "which", "while", "whither", "who", "whoever", "whole", "whom", "whose",
   "why", "will", "with", "within", "without", "would", "yet", "you",
   "your", "yours", "yourself", "yourselves"]

/-- Terms of one document under `ngram_range=(1, 2)`: the non-stop-word
unigrams, followed by the bigrams of consecutive surviving unigrams
(scikit-learn filters stop words before building bigrams). -/
def docTerms (s : String) : List String :=
  let toks := (tokenize s).filter (fun t => !(english_stop_words.contains t))
  toks ++ List.zipWith (fun a b => a ++ " " ++ b) toks toks.tail

/-- All term occurrences of a corpus, in document order. -/
def allTermsOf (docs : List String) : List String := (docs.map docTerms).flatten

/-- Total number of occurrences of a term in the corpus (the quantity
`max_features` selects on). -/
def corpusCount (docs : List String) (t : String) : ℕ :=
  (docs.map (fun d => (docTerms d).count t)).sum

/-- The fitted vocabulary: distinct terms sorted lexicographically,
capped at the 5000 terms of highest corpus count (`max_features=5000`;
the cap keeps the lexicographic index order of the survivors, ties
resolved stably in favour of lexicographically smaller terms). -/
def vocabOf (docs : List String) : List String :=
  let sorted := sortStrings (allTermsOf docs).dedup
  if sorted.length ≤ 5000 then sorted
  else
    let kept := (List.insertionSort
      (fun a b => corpusCount docs b ≤ corpusCount docs a) sorted).take 5000
    sorted.filter (fun t => kept.contains t)

/-- Document frequency of a term: number of documents containing it. -/
def docFreq (docs : List String) (t : String) : ℕ :=
  (docs.filter (fun d => 0 < (docTerms d).count t)).length

/-- Smoothed inverse document frequency (`smooth_idf=True`, the
scikit-learn default): `ln((1 + n) / (1 + df)) + 1`. -/
noncomputable def idf (docs : List String) (t : String) : ℝ :=
  Real.log ((1 + (docs.length : ℝ)) / (1 + (docFreq docs t : ℝ))) + 1

/-- Un-normalised tf-idf row of one document: raw count times idf, one
coordinate per vocabulary term. -/
noncomputable def tfidfRawRow (docs : List String) (d : String) : List ℝ :=
  (vocabOf docs).map (fun t => ((docTerms d).count t : ℝ) * idf docs t)

/-- Sum of squares of a real vector. -/
noncomputable def sumSq (v : List ℝ) : ℝ := (v.map (fun x => x ^ 2)).sum

/-- Euclidean norm of a real vector. -/
noncomputable def l2norm (v : List ℝ) : ℝ := Real.sqrt (sumSq v)

/-- scikit-learn `normalize(v, norm='l2')` on one row: divide by the norm,
with zero norms replaced by 1 so that zero rows stay zero. -/
noncomputable def l2normalize (v : List ℝ) : List ℝ :=
  v.map (fun x => x / (if l2norm v = 0 then 1 else l2norm v))

/-- The dense tf-idf matrix of a corpus, one L2-normalised row per
document. -/
noncomputable def tfidfMatrix (docs : List String) : List (List ℝ) :=
  docs.map (fun d => l2normalize (tfidfRawRow docs d))

/-- `TfidfVectorizer.fit_transform`: the matrix, or the empty-vocabulary
`ValueError` when no term survives tokenization. -/
noncomputable def fit_transform (docs : List String) : Except String (List (List ℝ)) :=
  if vocabOf docs = [] then
    Except.error "empty vocabulary; perhaps the documents only contain stop words"
  else Except.ok (tfidfMatrix docs)

/-- Dot product of two real vectors (extra coordinates ignored, as rows
of one matrix always have equal length). -/
noncomputable def dotL (x y : List ℝ) : ℝ := (List.zipWith (fun a b => a * b) x y).sum

/-- `sklearn.metrics.pairwise.cosine_similarity` on a pair of rows:
L2-normalise both (zero rows stay zero) and take the dot product. -/
noncomputable def cosine_similarity (x y : List ℝ) : ℝ :=
  dotL (l2normalize x) (l2normalize y)

/-- The sort key of `job_scores.sort(key=lambda x: x[1], reverse=True)`:
`p` precedes `q` when `p`'s score is at least `q`'s. -/
def scoreGe (p q : Job × ℝ) : Prop := q.2 ≤ p.2

noncomputable instance : DecidableRel scoreGe := fun p q => Real.decidableLE q.2 p.2

instance : IsTrans (Job × ℝ) scoreGe := ⟨fun _ _ _ h₁ h₂ => le_trans h₂ h₁⟩

instance : IsTotal (Job × ℝ) scoreGe := ⟨fun a b => le_total b.2 a.2⟩

/-- The corpus handed to the vectorizer: user text first (document 0),
then one document per job, in input order. -/
def allTexts (user : User) (jobs : List Job) : List String :=
  combine_user_profile_text user :: jobs.map combine_job_text

/-- The pre-sort `(job, score)` pairing built inside
`compute_tfidf_recommendations`: jobs in input order, zipped with the
cosine similarity of the user row against each job row. -/
noncomputable def job_scores_of (user : User) (jobs : List Job) : List (Job × ℝ) :=
  let m := tfidfMatrix (allTexts user jobs)
  jobs.zip ((m.drop 1).map (fun v => cosine_similarity (m.headD []) v))

/-- `compute_tfidf_recommendations` (tfidf_recommender.py line 66).
Empty job list short-circuits to `[]`; otherwise the tf-idf matrix over
user and job texts is fitted (possibly raising the empty-vocabulary
`ValueError`, embedded as `Except.error`), each job is scored by cosine
similarity against the user row, the pairs are sorted stably by
descending score, and the Python slice `[:limit]` is applied. -/
noncomputable def compute_tfidf_recommendations (user : User) (jobs : List Job)
    (limit : Int) : Except String (List (Job × ℝ)) :=
  if jobs = [] then Except.ok []
  else
    match fit_transform (allTexts user jobs) with
    | Except.error e => Except.error e
    | Except.ok m =>
      let job_scores := jobs.zip ((m.drop 1).map (fun v => cosine_similarity (m.headD []) v))
      Except.ok (pySlice limit (List.insertionSort scoreGe job_scores))

/-- The validated body of `POST /ml/recommend`
(schemas.py, `RecommendationRequest`). -/
structure RecommendationRequest where
  user_id : Int
  limit : Int
  deriving DecidableEq

/-- One entry of the response list (schemas.py, `JobRecommendation`);
`JobResponse.model_validate(job)` re-serialises the same job record, so
the job is carried as is. -/
structure JobRecommendation where
  job : Job
  match_score : ℝ

/-- The response of `POST /ml/recommend`
(schemas.py, `RecommendationResponse`). -/
structure RecommendationResponse where
  user_id : Int
  recommendations : List JobRecommendation
  total_found : ℕ

/-- Error outcomes of the route: the explicit 404, or an exception
escaping the handler (the empty-vocabulary `ValueError` would surface as
a 500). -/
inductive RouteError where
  | notFound : RouteError
  | internalError : String → RouteError
  deriving DecidableEq

/-- `db.query(User).filter(User.id == user_id).first()` over an in-memory
user table. -/
def findUser (users : List User) (uid : Int) : Option User :=
  users.find? (fun u => u.id == uid)

/-- `recommend_jobs` (ml_routes.py line 30) over in-memory stores.  The
second component of the result records whether
`compute_tfidf_recommendations` was invoked on this path (the route
returns before the ranker on a missing user and on an empty job table). -/
noncomputable def recommend_jobs (users : List User) (all_jobs : List Job)
    (request : RecommendationRequest) : Except RouteError RecommendationResponse × Bool :=
  match findUser users request.user_id with
  | none => (Except.error RouteError.notFound, false)
  | some user =>
    if all_jobs = [] then (Except.ok ⟨request.user_id, [], 0⟩, false)
    else
      match compute_tfidf_recommendations user all_jobs request.limit with
      | Except.error e => (Except.error (RouteError.internalError e), true)
      | Except.ok job_scores =>
        let recommendations := job_scores.map (fun p => JobRecommendation.mk p.1 p.2)
        (Except.ok ⟨request.user_id, recommendations, recommendations.length⟩, true)

/-- A raw request body before pydantic validation: `user_id` as given,
`limit` possibly omitted. -/
structure RawRecommendationRequest where
  user_id : Int
  limit : Option Int

/-- Pydantic validation of `RecommendationRequest`:
`user_id: int = Field(..., gt=0)` and
`limit: int = Field(10, ge=1, le=50)` — default 10 when omitted. -/
def parseRecommendationRequest (r : RawRecommendationRequest) : Option RecommendationRequest :=
  if 0 < r.user_id then
    match r.limit with
    | none => some ⟨r.user_id, 10⟩
    | some l => if 1 ≤ l ∧ l ≤ 50 then some ⟨r.user_id, l⟩ else none
  else none

/-- A user whose three profile text fields are all absent: the composed
user text is empty. -/
def demoUser : User :=
  { id := 1, email := "u@example.com", full_name := none, has_disability := false,
    disability_type := none, accessibility_needs := none }

/-- A job whose composed text is `"alpha beta"`. -/
def demoJob : Job :=
  { id := 1, title := some "alpha beta", company := "acme", description := none,
    skills := none, location := "remote", is_remote := true, is_inclusive := true,
    accessibility_features := none, salary_min := none, salary_max := none,
    application_url := none }

/-- A job whose three text fields are all absent: the composed job text
is empty. -/
def emptyJob : Job :=
  { id := 2, title := none, company := "acme", description := none,
    skills := none, location := "remote", is_remote := false, is_inclusive := false,
    accessibility_features := none, salary_min := none, salary_max := none,
    application_url := none }

theorem demo_docs : allTexts demoUser [demoJob] = ["", "alpha beta"] := by decide

theorem demo_vocab : vocabOf ["", "alpha beta"] = ["alpha", "alpha beta", "beta"] := by decide

theorem docTerms_empty_string : docTerms "" = [] := by decide

theorem demo_raw_user : tfidfRawRow ["", "alpha beta"] "" = [0, 0, 0] := by
  rw [tfidfRawRow, demo_vocab]
  simp [docTerms_empty_string]

theorem l2normalize_zero3 : l2normalize [(0 : ℝ), 0, 0] = [0, 0, 0] := by
  simp [l2normalize]

theorem dotL_zero_left (x y : List ℝ) (h : ∀ a ∈ x, a = 0) : dotL x y = 0 := by
  induction x generalizing y with
  | nil => simp [dotL]
  | cons a x ih =>
    cases y with
    | nil => simp [dotL]
    | cons b y =>
      have ha : a = 0 := h a (by simp)
      have := ih y (fun a ha => h a (by simp [ha]))
      simp only [dotL, List.zipWith, List.sum_cons] at this ⊢
      rw [ha, this, zero_mul, add_zero]

theorem cosine_similarity_zero3 (v : List ℝ) : cosine_similarity [(0 : ℝ), 0, 0] v = 0 := by
  rw [cosine_similarity, l2normalize_zero3]
  exact dotL_zero_left _ _ (by simp)

theorem demo_eval : compute_tfidf_recommendations demoUser [demoJob] 1 =
    Except.ok [(demoJob, 0)] := by
  rw [compute_tfidf_recommendations]
  rw [if_neg (by simp : ¬([demoJob] = []))]
  rw [demo_docs, fit_transform]
  rw [if_neg (by rw [demo_vocab]; simp)]
  show Except.ok _ = _
  rw [tfidfMatrix]
  simp only [List.map_cons, List.map_nil, List.drop_succ_cons, List.drop_nil, List.headD_cons]
  rw [demo_raw_user, l2normalize_zero3]
  simp only [List.map_cons, List.map_nil, cosine_similarity_zero3, List.zip_cons_cons,
    List.zip_nil_right]
  simp [pySlice, List.insertionSort, List.orderedInsert]

theorem demo_eval_limit_zero : compute_tfidf_recommendations demoUser [demoJob] 0 =
    Except.ok [] := by
  rw [compute_tfidf_recommendations]
  rw [if_neg (by simp : ¬([demoJob] = []))]
  rw [demo_docs, fit_transform]
  rw [if_neg (by rw [demo_vocab]; simp)]
  show Except.ok _ = _
  simp [pySlice]

theorem demo_err : compute_tfidf_recommendations demoUser [emptyJob] 1 =
    Except.error "empty vocabulary; perhaps the documents only contain stop words" := by
  rw [compute_tfidf_recommendations]
  rw [if_neg (by simp : ¬([emptyJob] = []))]
  have h : allTexts demoUser [emptyJob] = ["", ""] := by decide
  rw [h, fit_transform]
  rw [if_pos (by decide)]

theorem rank_ok (u : User) (jobs : List Job) (limit : Int) (hjobs : jobs ≠ [])
    (hv : vocabOf (allTexts u jobs) ≠ []) :
    compute_tfidf_recommendations u jobs limit =
      Except.ok (pySlice limit (List.insertionSort scoreGe (job_scores_of u jobs))) := by
  rw [compute_tfidf_recommendations, if_neg hjobs, fit_transform, if_neg hv]
  rfl

theorem rank_error (u : User) (jobs : List Job) (limit : Int) (hjobs : jobs ≠ [])
    (hv : vocabOf (allTexts u jobs) = []) :
    compute_tfidf_recommendations u jobs limit =
      Except.error "empty vocabulary; perhaps the documents only contain stop words" := by
  rw [compute_tfidf_recommendations, if_neg hjobs, fit_transform, if_pos hv]

theorem length_tfidfMatrix (docs : List String) : (tfidfMatrix docs).length = docs.length := by
  simp [tfidfMatrix]

theorem length_job_scores_of (u : User) (jobs : List Job) :
    (job_scores_of u jobs).length = jobs.length := by
  simp [job_scores_of, length_tfidfMatrix, allTexts]

theorem map_fst_job_scores_of (u : User) (jobs : List Job) :
    (job_scores_of u jobs).map Prod.fst = jobs := by
  apply List.map_fst_zip
  simp [length_tfidfMatrix, allTexts]

theorem pySlice_sublist {α : Type} (n : Int) (l : List α) : List.Sublist (pySlice n l) l := by
  rw [pySlice]
  split
  · exact List.take_sublist _ _
  · exact List.take_sublist _ _

theorem length_pySlice_pos {α : Type} (n : Int) (hn : 0 < n) (l : List α) :
    (pySlice n l).length = min n.toNat l.length := by
  rw [pySlice, if_neg (by omega), List.length_take]

theorem filter_orderedInsert_score (c : ℝ) (a : Job × ℝ) (l : List (Job × ℝ)) :
    (List.orderedInsert scoreGe a l).filter (fun p => decide (p.2 = c)) =
      if a.2 = c then a :: l.filter (fun p => decide (p.2 = c))
      else l.filter (fun p => decide (p.2 = c)) := by
  induction l with
  | nil =>
    by_cases hac : a.2 = c <;> simp [List.orderedInsert, List.filter, hac]
  | cons b l ih =>
    rw [List.orderedInsert]
    by_cases hab : scoreGe a b
    · rw [if_pos hab]
      by_cases hac : a.2 = c <;> by_cases hbc : b.2 = c <;>
        simp [List.filter_cons, hac, hbc]
    · rw [if_neg hab]
      have hlt : a.2 < b.2 := lt_of_not_le hab
      by_cases hac : a.2 = c
      · have hbc : ¬(b.2 = c) := by rw [← hac]; exact ne_of_gt hlt
        simp [List.filter_cons, hbc, ih, hac]
      · by_cases hbc : b.2 = c <;> simp [List.filter_cons, hbc, ih, hac]

theorem filter_insertionSort_score (c : ℝ) (l : List (Job × ℝ)) :
    (List.insertionSort scoreGe l).filter (fun p => decide (p.2 = c)) =
      l.filter (fun p => decide (p.2 = c)) := by
  induction l with
  | nil => rfl
  | cons a l ih =>
    rw [List.insertionSort, filter_orderedInsert_score]
    by_cases hac : a.2 = c <;> simp [List.filter_cons, hac, ih]

theorem sumSq_nonneg (v : List ℝ) : 0 ≤ sumSq v := by
  apply List.sum_nonneg
  intro x hx
  obtain ⟨a, _, rfl⟩ := List.mem_map.1 hx
  exact sq_nonneg a

theorem l2norm_nonneg (v : List ℝ) : 0 ≤ l2norm v := Real.sqrt_nonneg _

theorem sumSq_cons (a : ℝ) (v : List ℝ) : sumSq (a :: v) = a ^ 2 + sumSq v := by
  simp [sumSq]

theorem dotL_cons (a b : ℝ) (x y : List ℝ) :
    dotL (a :: x) (b :: y) = a * b + dotL x y := by
  simp [dotL]

theorem dotL_sq_le (x y : List ℝ) : (dotL x y) ^ 2 ≤ sumSq x * sumSq y := by
  induction x generalizing y with
  | nil =>
    simp only [dotL, List.zipWith_nil_left, List.sum_nil]
    simpa using mul_nonneg (sumSq_nonneg []) (sumSq_nonneg y)
  | cons a x ih =>
    cases y with
    | nil =>
      simp only [dotL, List.zipWith_nil_right, List.sum_nil]
      simpa using mul_nonneg (sumSq_nonneg (a :: x)) (sumSq_nonneg [])
    | cons b y =>
      rw [dotL_cons, sumSq_cons, sumSq_cons]
      have hX := sumSq_nonneg x
      have hY := sumSq_nonneg y
      have hxy := ih y
      by_cases hY0 : sumSq y = 0
      · have hd : dotL x y = 0 := by
          have h1 : (dotL x y) ^ 2 ≤ 0 := by rw [hY0, mul_zero] at hxy; exact hxy
          have h2 : (0 : ℝ) ≤ (dotL x y) ^ 2 := sq_nonneg _
          exact pow_eq_zero_iff (by norm_num) |>.1 (le_antisymm h1 h2)
        rw [hd, hY0]
        nlinarith [sq_nonneg a, sq_nonneg b, hX]
      · have hYpos : 0 < sumSq y := lt_of_le_of_ne hY (Ne.symm hY0)
        nlinarith [sq_nonneg (a * sumSq y - b * dotL x y),
          mul_nonneg (add_nonneg (sq_nonneg b) hY) (sub_nonneg.2 hxy)]

theorem dotL_le_norms (x y : List ℝ) : dotL x y ≤ l2norm x * l2norm y := by
  have h := dotL_sq_le x y
  have h1 : Real.sqrt ((dotL x y) ^ 2) ≤ Real.sqrt (sumSq x * sumSq y) :=
    Real.sqrt_le_sqrt h
  rw [Real.sqrt_sq_eq_abs, Real.sqrt_mul (sumSq_nonneg x)] at h1
  exact le_trans (le_abs_self _) h1

theorem sumSq_map_div (v : List ℝ) (c : ℝ) :
    sumSq (v.map (fun x => x / c)) = sumSq v / c ^ 2 := by
  induction v with
  | nil => simp [sumSq]
  | cons a v ih =>
    rw [List.map_cons, sumSq_cons, sumSq_cons, ih, div_pow, add_div]

theorem l2normalize_of_norm_zero (v : List ℝ) (h : l2norm v = 0) : l2normalize v = v := by
  rw [l2normalize, if_pos h]
  simp

theorem l2norm_l2normalize_le_one (v : List ℝ) : l2norm (l2normalize v) ≤ 1 := by
  by_cases h : l2norm v = 0
  · rw [l2normalize_of_norm_zero v h, h]
    norm_num
  · have hs : sumSq v ≠ 0 := by
      intro h0
      exact h (by rw [l2norm, h0, Real.sqrt_zero])
    rw [l2normalize, if_neg h, l2norm, sumSq_map_div]
    have hsq : l2norm v ^ 2 = sumSq v := Real.sq_sqrt (sumSq_nonneg v)
    rw [hsq, div_self hs, Real.sqrt_one]

theorem l2normalize_nonneg (v : List ℝ) (h : ∀ a ∈ v, 0 ≤ a) :
    ∀ b ∈ l2normalize v, 0 ≤ b := by
  intro b hb
  rw [l2normalize] at hb
  obtain ⟨a, ha, rfl⟩ := List.mem_map.1 hb
  apply div_nonneg (h a ha)
  split
  · norm_num
  · exact l2norm_nonneg v

theorem dotL_nonneg (x y : List ℝ) (hx : ∀ a ∈ x, 0 ≤ a) (hy : ∀ b ∈ y, 0 ≤ b) :
    0 ≤ dotL x y := by
  induction x generalizing y with
  | nil => simp [dotL]
  | cons a x ih =>
    cases y with
    | nil => simp [dotL]
    | cons b y =>
      rw [dotL_cons]
      have h1 : 0 ≤ a * b := mul_nonneg (hx a (by simp)) (hy b (by simp))
      have h2 : 0 ≤ dotL x y :=
        ih y (fun a ha => hx a (by simp [ha])) (fun b hb => hy b (by simp [hb]))
      linarith

theorem cosine_similarity_le_one (x y : List ℝ) : cosine_similarity x y ≤ 1 := by
  rw [cosine_similarity]
  calc dotL (l2normalize x) (l2normalize y)
      ≤ l2norm (l2normalize x) * l2norm (l2normalize y) := dotL_le_norms _ _
    _ ≤ 1 := mul_le_one₀ (l2norm_l2normalize_le_one x) (l2norm_nonneg _)
        (l2norm_l2normalize_le_one y)

theorem cosine_similarity_nonneg (x y : List ℝ) (hx : ∀ a ∈ x, 0 ≤ a)
    (hy : ∀ b ∈ y, 0 ≤ b) : 0 ≤ cosine_similarity x y :=
  dotL_nonneg _ _ (l2normalize_nonneg x hx) (l2normalize_nonneg y hy)

theorem all_zero_of_sumSq_eq_zero (v : List ℝ) (h : sumSq v = 0) : ∀ a ∈ v, a = 0 := by
  induction v with
  | nil => simp
  | cons a v ih =>
    rw [sumSq_cons] at h
    have h1 : a ^ 2 = 0 ∧ sumSq v = 0 := by
      constructor <;> nlinarith [sq_nonneg a, sumSq_nonneg v]
    intro b hb
    rcases List.mem_cons.1 hb with rfl | hb
    · exact pow_eq_zero_iff (by norm_num) |>.1 h1.1
    · exact ih h1.2 b hb

theorem dotL_comm (x y : List ℝ) : dotL x y = dotL y x := by
  induction x generalizing y with
  | nil => cases y <;> simp [dotL]
  | cons a x ih =>
    cases y with
    | nil => simp [dotL]
    | cons b y => rw [dotL_cons, dotL_cons, ih, mul_comm]

theorem cosine_similarity_of_zero_norm (x y : List ℝ)
    (h : l2norm x = 0 ∨ l2norm y = 0) : cosine_similarity x y = 0 := by
  have key : ∀ z w : List ℝ, l2norm z = 0 → dotL (l2normalize z) w = 0 := by
    intro z w hz
    rw [l2normalize_of_norm_zero z hz]
    apply dotL_zero_left
    exact all_zero_of_sumSq_eq_zero z ((Real.sqrt_eq_zero (sumSq_nonneg z)).1 hz)
  rw [cosine_similarity]
  rcases h with hx | hy
  · exact key x _ hx
  · rw [dotL_comm]
    exact key y _ hy

theorem tfidfRawRow_nonneg (docs : List String) (d : String) :
    ∀ a ∈ tfidfRawRow docs d, 0 ≤ a := by
  intro a ha
  rw [tfidfRawRow] at ha
  obtain ⟨t, _, rfl⟩ := List.mem_map.1 ha
  apply mul_nonneg (Nat.cast_nonneg _)
  rw [idf]
  have hdf : (docFreq docs t : ℝ) ≤ (docs.length : ℝ) := by
    exact_mod_cast List.length_filter_le _ docs
  have hlog : 0 ≤ Real.log ((1 + (docs.length : ℝ)) / (1 + (docFreq docs t : ℝ))) := by
    apply Real.log_nonneg
    rw [le_div_iff₀ (by positivity)]
    linarith
  linarith

theorem tfidfMatrix_row_nonneg (docs : List String) (row : List ℝ)
    (h : row ∈ tfidfMatrix docs) : ∀ a ∈ row, 0 ≤ a := by
  rw [tfidfMatrix] at h
  obtain ⟨d, _, rfl⟩ := List.mem_map.1 h
  exact l2normalize_nonneg _ (tfidfRawRow_nonneg docs d)

/-- C6: for every user and every limit, the ranker applied to an empty job
list returns the empty sequence immediately (the early `if not jobs` branch,
before any vector construction) and without error. -/
theorem c6_empty_jobs (u : User) (limit : Int) :
    compute_tfidf_recommendations u [] limit = Except.ok [] := by
  rw [compute_tfidf_recommendations, if_pos rfl]

/-- C1, counterexample: at a user and a job whose composed texts are all
empty, `compute_tfidf_recommendations` raises the empty-vocabulary
`ValueError` instead of returning a list of length `min(limit, len(jobs))
= 1`, so the unconditional length claim fails. -/
theorem c1_length_counterexample :
    compute_tfidf_recommendations demoUser [emptyJob] 1 =
      Except.error "empty vocabulary; perhaps the documents only contain stop words" :=
  demo_err

/-- C1, amended: for every user, job list and positive limit, whenever
`compute_tfidf_recommendations` returns a result (that is, the fitted
vocabulary was non-empty), the result length is `min(limit, len(jobs))`. -/
theorem c1_rank_length (u : User) (jobs : List Job) (limit : Int) (r : List (Job × ℝ))
    (hl : 0 < limit) (h : compute_tfidf_recommendations u jobs limit = Except.ok r) :
    r.length = min limit.toNat jobs.length := by
  by_cases hjobs : jobs = []
  · subst hjobs
    rw [compute_tfidf_recommendations, if_pos rfl] at h
    obtain rfl := (Except.ok.inj h).symm
    simp
  · by_cases hv : vocabOf (allTexts u jobs) = []
    · rw [rank_error u jobs limit hjobs hv] at h
      simp at h
    · rw [rank_ok u jobs limit hjobs hv] at h
      obtain rfl := (Except.ok.inj h).symm
      rw [length_pySlice_pos limit hl, List.length_insertionSort, length_job_scores_of]

/-- Witness for C1 at the demo input (one job, limit 1). -/
theorem c1_rank_length_witness :
    (0 : Int) < 1 ∧ ([(demoJob, (0 : ℝ))]).length = min (Int.toNat 1) ([demoJob]).length :=
  ⟨by norm_num, c1_rank_length demoUser [demoJob] 1 [(demoJob, 0)] (by norm_num) demo_eval⟩

/-- C4, counterexample: with the user text and every job text empty, the
ranker does not return a result at all — it raises the empty-vocabulary
`ValueError` — so the claim that it still returns zero scores in input
order fails. -/
theorem c4_empty_texts_counterexample :
    combine_user_profile_text demoUser = "" ∧ combine_job_text emptyJob = "" ∧
      (compute_tfidf_recommendations demoUser [emptyJob] 1).isOk = false := by
  refine ⟨by decide, by decide, ?_⟩
  rw [demo_err]
  rfl

/-- C4, amended: if the composed user text and every composed job text are
empty and the job list is non-empty, `compute_tfidf_recommendations`
raises the empty-vocabulary `ValueError` (from `fit_transform`) instead of
returning all-zero scores. -/
theorem c4_empty_texts_error (u : User) (jobs : List Job) (limit : Int)
    (hjobs : jobs ≠ []) (hu : combine_user_profile_text u = "")
    (hj : ∀ j ∈ jobs, combine_job_text j = "") :
    compute_tfidf_recommendations u jobs limit =
      Except.error "empty vocabulary; perhaps the documents only contain stop words" := by
  apply rank_error u jobs limit hjobs
  have hdocs : ∀ d ∈ allTexts u jobs, d = "" := by
    intro d hd
    rw [allTexts] at hd
    rcases List.mem_cons.1 hd with rfl | hd
    · exact hu
    · obtain ⟨j, hj2, rfl⟩ := List.mem_map.1 hd
      exact hj j hj2
  have hterms : allTermsOf (allTexts u jobs) = [] := by
    rw [allTermsOf]
    have hmap : (allTexts u jobs).map docTerms = (allTexts u jobs).map (fun _ => []) := by
      apply List.map_congr_left
      intro d hd
      rw [hdocs d hd]
      rfl
    rw [hmap]
    simp
  rw [vocabOf, hterms]
  rfl

/-- Witness for C4 at the demo input (all text fields absent). -/
theorem c4_empty_texts_error_witness :
    ([emptyJob] ≠ ([] : List Job)) ∧
      compute_tfidf_recommendations demoUser [emptyJob] 1 =
        Except.error "empty vocabulary; perhaps the documents only contain stop words" :=
  ⟨by simp, c4_empty_texts_error demoUser [emptyJob] 1 (by simp) (by decide) (by decide)⟩

/-- C5, counterexample: for a non-empty job list and the non-positive
limit 0, the ranker returns a defined result (the empty list, by Python
slice semantics) instead of signalling a caller error, so the claimed
failure semantics are wrong. -/
theorem c5_nonpositive_limit_counterexample :
    compute_tfidf_recommendations demoUser [demoJob] 0 = Except.ok [] ∧
      ([demoJob] ≠ ([] : List Job)) :=
  ⟨demo_eval_limit_zero, by simp⟩

/-- C5, amended: the ranker performs no validation of `limit` at all — a
non-positive limit is accepted and handled by Python slicing.  Within the
typed embedding it signals an error exactly when the job list is non-empty
and the fitted vocabulary is empty (the empty-vocabulary `ValueError`). -/
theorem c5_error_characterization (u : User) (jobs : List Job) (limit : Int) :
    (compute_tfidf_recommendations u jobs limit).isOk = false ↔
      (jobs ≠ [] ∧ vocabOf (allTexts u jobs) = []) := by
  by_cases hjobs : jobs = []
  · subst hjobs
    rw [compute_tfidf_recommendations, if_pos rfl]
    simp [Except.isOk, Except.toBool]
  · by_cases hv : vocabOf (allTexts u jobs) = []
    · rw [rank_error u jobs limit hjobs hv]
      simp [Except.isOk, Except.toBool, hjobs, hv]
    · rw [rank_ok u jobs limit hjobs hv]
      simp [Except.isOk, Except.toBool, hjobs, hv]

/-- C2: whenever `compute_tfidf_recommendations` returns a sequence (for
any user, job list and positive limit), that sequence is sorted by score
in descending order (`scoreGe`), and for every score value the returned
pairs with that score form a sublist of the pre-sort `(job, score)`
pairing `job_scores_of`, whose order is the input job order — the stable
tie-break. -/
theorem c2_rank_sorted_stable (u : User) (jobs : List Job) (limit : Int)
    (r : List (Job × ℝ)) (_hl : 0 < limit)
    (h : compute_tfidf_recommendations u jobs limit = Except.ok r) :
    r.Pairwise scoreGe ∧
      ∀ c : ℝ, List.Sublist (r.filter (fun p => decide (p.2 = c)))
        ((job_scores_of u jobs).filter (fun p => decide (p.2 = c))) := by
  by_cases hjobs : jobs = []
  · subst hjobs
    rw [compute_tfidf_recommendations, if_pos rfl] at h
    obtain rfl := (Except.ok.inj h).symm
    exact ⟨List.Pairwise.nil, fun c => List.nil_sublist _⟩
  · by_cases hv : vocabOf (allTexts u jobs) = []
    · rw [rank_error u jobs limit hjobs hv] at h
      simp at h
    · rw [rank_ok u jobs limit hjobs hv] at h
      obtain rfl := (Except.ok.inj h).symm
      constructor
      · exact (List.sorted_insertionSort scoreGe (job_scores_of u jobs)).sublist
          (pySlice_sublist limit _)
      · intro c
        have h1 := (pySlice_sublist limit
          (List.insertionSort scoreGe (job_scores_of u jobs))).filter
          (fun p => decide (p.2 = c))
        rw [filter_insertionSort_score] at h1
        exact h1

/-- Witness for C2 at the demo input, with the tie value 0. -/
theorem c2_rank_sorted_stable_witness :
    ([(demoJob, (0 : ℝ))]).Pairwise scoreGe ∧
      List.Sublist (([(demoJob, (0 : ℝ))]).filter (fun p => decide (p.2 = 0)))
        ((job_scores_of demoUser [demoJob]).filter (fun p => decide (p.2 = 0))) := by
  have h := c2_rank_sorted_stable demoUser [demoJob] 1 [(demoJob, 0)] (by norm_num) demo_eval
  exact ⟨h.1, h.2 0⟩

/-- C9: whenever `compute_tfidf_recommendations` returns a result, the
jobs of the returned pairs form a sub-permutation of the input job list
(each returned occurrence is backed by a distinct input occurrence, so
nothing is invented and nothing is used twice), and in particular every
returned job is a member of the input list. -/
theorem c9_result_from_input (u : User) (jobs : List Job) (limit : Int)
    (r : List (Job × ℝ)) (h : compute_tfidf_recommendations u jobs limit = Except.ok r) :
    (r.map Prod.fst).Subperm jobs ∧ ∀ p ∈ r, p.1 ∈ jobs := by
  by_cases hjobs : jobs = []
  · subst hjobs
    rw [compute_tfidf_recommendations, if_pos rfl] at h
    obtain rfl := (Except.ok.inj h).symm
    exact ⟨List.nil_subperm, by simp⟩
  · by_cases hv : vocabOf (allTexts u jobs) = []
    · rw [rank_error u jobs limit hjobs hv] at h
      simp at h
    · rw [rank_ok u jobs limit hjobs hv] at h
      obtain rfl := (Except.ok.inj h).symm
      have hsub : List.Sublist
          ((pySlice limit (List.insertionSort scoreGe (job_scores_of u jobs))).map Prod.fst)
          ((List.insertionSort scoreGe (job_scores_of u jobs)).map Prod.fst) :=
        (pySlice_sublist limit _).map Prod.fst
      have hperm : ((List.insertionSort scoreGe (job_scores_of u jobs)).map Prod.fst).Perm
          jobs := by
        have hp := (List.perm_insertionSort scoreGe (job_scores_of u jobs)).map Prod.fst
        rw [map_fst_job_scores_of] at hp
        exact hp
      have part1 := hsub.subperm.trans hperm.subperm
      refine ⟨part1, fun p hp => ?_⟩
      exact part1.subset (List.mem_map_of_mem Prod.fst hp)

/-- Witness for C9 at the demo input. -/
theorem c9_result_from_input_witness :
    (([(demoJob, (0 : ℝ))]).map Prod.fst).Subperm [demoJob] ∧
      (demoJob, (0 : ℝ)).1 ∈ [demoJob] := by
  have h := c9_result_from_input demoUser [demoJob] 1 [(demoJob, 0)] demo_eval
  exact ⟨h.1, h.2 (demoJob, 0) (by simp)⟩

/-- C3: every score of a returned result lies in `[0, 1]`; more
specifically the embedded cosine similarity of coordinate-wise
non-negative vectors (which all tf-idf rows are) lies in `[0, 1]`, and it
is `0` whenever either vector has zero magnitude. -/
theorem c3_scores_unit_interval :
    (∀ (u : User) (jobs : List Job) (limit : Int) (r : List (Job × ℝ)),
        compute_tfidf_recommendations u jobs limit = Except.ok r →
        ∀ p ∈ r, 0 ≤ p.2 ∧ p.2 ≤ 1) ∧
    (∀ x y : List ℝ, (∀ a ∈ x, 0 ≤ a) → (∀ b ∈ y, 0 ≤ b) →
        0 ≤ cosine_similarity x y ∧ cosine_similarity x y ≤ 1) ∧
    (∀ x y : List ℝ, l2norm x = 0 ∨ l2norm y = 0 → cosine_similarity x y = 0) := by
  refine ⟨?_, fun x y hx hy =>
    ⟨cosine_similarity_nonneg x y hx hy, cosine_similarity_le_one x y⟩,
    cosine_similarity_of_zero_norm⟩
  intro u jobs limit r h p hp
  by_cases hjobs : jobs = []
  · subst hjobs
    rw [compute_tfidf_recommendations, if_pos rfl] at h
    obtain rfl := (Except.ok.inj h).symm
    simp at hp
  · by_cases hv : vocabOf (allTexts u jobs) = []
    · rw [rank_error u jobs limit hjobs hv] at h
      simp at h
    · rw [rank_ok u jobs limit hjobs hv] at h
      obtain rfl := (Except.ok.inj h).symm
      have hp1 : p ∈ List.insertionSort scoreGe (job_scores_of u jobs) :=
        (pySlice_sublist limit _).subset hp
      have hp2 : p ∈ job_scores_of u jobs := (List.mem_insertionSort scoreGe).1 hp1
      rw [job_scores_of] at hp2
      have hp3 := (List.of_mem_zip hp2).2
      obtain ⟨v, hv2, hsnd⟩ := List.mem_map.1 hp3
      rcases hm : tfidfMatrix (allTexts u jobs) with _ | ⟨row0, rows⟩
      · have hlen := length_tfidfMatrix (allTexts u jobs)
        rw [hm] at hlen
        simp [allTexts] at hlen
      · rw [hm] at hv2 hsnd
        have hvrow : ∀ a ∈ v, 0 ≤ a := by
          apply tfidfMatrix_row_nonneg (allTexts u jobs) v
          rw [hm]
          exact (List.drop_sublist 1 _).subset hv2
        have hhead : ∀ a ∈ row0, 0 ≤ a := by
          apply tfidfMatrix_row_nonneg (allTexts u jobs) row0
          rw [hm]
          exact List.mem_cons_self _ _
        rw [List.headD_cons] at hsnd
        rw [← hsnd]
        exact ⟨cosine_similarity_nonneg _ _ hhead hvrow, cosine_similarity_le_one _ _⟩

/-- Witness for C3: the demo score, a concrete non-negative pair, and a
concrete zero-magnitude pair. -/
theorem c3_scores_unit_interval_witness :
    (0 ≤ (demoJob, (0 : ℝ)).2 ∧ (demoJob, (0 : ℝ)).2 ≤ 1) ∧
      (0 ≤ cosine_similarity [(1 : ℝ)] [(1 : ℝ)] ∧
        cosine_similarity [(1 : ℝ)] [(1 : ℝ)] ≤ 1) ∧
      cosine_similarity [(0 : ℝ)] [(1 : ℝ)] = 0 := by
  obtain ⟨h1, h2, h3⟩ := c3_scores_unit_interval
  refine ⟨h1 demoUser [demoJob] 1 [(demoJob, 0)] demo_eval (demoJob, 0) (by simp),
    h2 [1] [1] (by norm_num) (by norm_num), h3 [0] [1] (Or.inl ?_)⟩
  simp [l2norm, sumSq]

/-- C7, counterexample: for a job whose title and skills are absent, the
code's composed text (which applies Python `str.strip()`) differs from
the plain space-separated concatenation the claim describes, which keeps
the two leading spaces. -/
theorem c7_concat_counterexample :
    combine_job_text
        { id := 3, title := none, company := "acme", description := some "code",
          skills := none, location := "x", is_remote := false, is_inclusive := false,
          accessibility_features := none, salary_min := none, salary_max := none,
          application_url := none } ≠
      spec_job_concat
        { id := 3, title := none, company := "acme", description := some "code",
          skills := none, location := "x", is_remote := false, is_inclusive := false,
          accessibility_features := none, salary_min := none, salary_max := none,
          application_url := none } := by decide

/-- C7, amended: the composed job text is the space-separated
concatenation of title, skills and description (absent fields as empty
strings) with leading and trailing whitespace stripped, and the composed
user text is the stripped space-separated concatenation of display name,
disability category and accessibility needs. -/
theorem c7_composed_text_stripped (j : Job) (u : User) :
    combine_job_text j =
      pyStrip (j.title.getD "" ++ " " ++ j.skills.getD "" ++ " " ++ j.description.getD "") ∧
    combine_user_profile_text u =
      pyStrip (u.full_name.getD "" ++ " " ++ u.disability_type.getD "" ++ " " ++
        u.accessibility_needs.getD "") :=
  ⟨rfl, rfl⟩

/-- C8: the API layer returns the 404 error without invoking the ranker
when the user id is not in the store; returns a success with zero
recommendations (without invoking the ranker) when the user exists and
the job pool is empty; and in every success response the total-found
count equals the length of the recommendation list. -/
theorem c8_route_behavior (users : List User) (jobs : List Job)
    (req : RecommendationRequest) :
    (findUser users req.user_id = none →
      recommend_jobs users jobs req = (Except.error RouteError.notFound, false)) ∧
    (findUser users req.user_id ≠ none → jobs = [] →
      recommend_jobs users jobs req = (Except.ok ⟨req.user_id, [], 0⟩, false)) ∧
    (∀ resp invoked, recommend_jobs users jobs req = (Except.ok resp, invoked) →
      resp.total_found = resp.recommendations.length) := by
  refine ⟨?_, ?_, ?_⟩
  · intro h
    rw [recommend_jobs, h]
  · intro h hj
    subst hj
    rcases hfu : findUser users req.user_id with _ | u
    · exact absurd hfu h
    · rw [recommend_jobs, hfu]
      simp
  · intro resp invoked h
    rw [recommend_jobs] at h
    rcases hfu : findUser users req.user_id with _ | u <;> rw [hfu] at h
    · simp at h
    · have h2 : (if jobs = [] then
          (Except.ok ⟨req.user_id, [], 0⟩, false)
        else
          match compute_tfidf_recommendations u jobs req.limit with
          | Except.error e => (Except.error (RouteError.internalError e), true)
          | Except.ok job_scores =>
            let recommendations := job_scores.map (fun p => JobRecommendation.mk p.1 p.2)
            (Except.ok ⟨req.user_id, recommendations, recommendations.length⟩, true)) =
          ((Except.ok resp : Except RouteError RecommendationResponse), invoked) := h
      by_cases hj : jobs = []
      · rw [if_pos hj] at h2
        simp only [Prod.mk.injEq, Except.ok.injEq] at h2
        rw [← h2.1]
        rfl
      · rw [if_neg hj] at h2
        rcases hr : compute_tfidf_recommendations u jobs req.limit with e | scores <;>
          rw [hr] at h2
        · simp at h2
        · simp only [Prod.mk.injEq, Except.ok.injEq] at h2
          rw [← h2.1]

/-- Witness for C8: a missing user, then an existing user with an empty
pool, then the total-found equation on the resulting response. -/
theorem c8_route_behavior_witness :
    recommend_jobs [] [] ⟨1, 5⟩ = (Except.error RouteError.notFound, false) ∧
      recommend_jobs [demoUser] [] ⟨1, 5⟩ = (Except.ok ⟨1, [], 0⟩, false) ∧
      (RecommendationResponse.mk 1 [] 0).total_found =
        (RecommendationResponse.mk 1 [] 0).recommendations.length := by
  refine ⟨(c8_route_behavior [] [] ⟨1, 5⟩).1 (by decide), ?_, ?_⟩
  · exact (c8_route_behavior [demoUser] [] ⟨1, 5⟩).2.1 (by decide) rfl
  · exact (c8_route_behavior [demoUser] [] ⟨1, 5⟩).2.2 ⟨1, [], 0⟩ false
      ((c8_route_behavior [demoUser] [] ⟨1, 5⟩).2.1 (by decide) rfl)

/-- C10: pydantic accepts a recommendation request only when `user_id` is
strictly positive and the effective `limit` lies in `[1, 50]`, the limit
defaulting to 10 when omitted; the route hands exactly this validated
`limit` to the ranker, so the ranker is never invoked through the API
with a non-positive limit or one above 50. -/
theorem c10_request_validation (raw : RawRecommendationRequest)
    (req : RecommendationRequest) (h : parseRecommendationRequest raw = some req) :
    0 < req.user_id ∧ 1 ≤ req.limit ∧ req.limit ≤ 50 ∧
      (raw.limit = none → req.limit = 10) := by
  rw [parseRecommendationRequest] at h
  by_cases hu : 0 < raw.user_id
  · rw [if_pos hu] at h
    rcases hl : raw.limit with _ | l <;> rw [hl] at h
    · obtain rfl := (Option.some.inj h).symm
      exact ⟨hu, by norm_num, by norm_num, fun _ => rfl⟩
    · have h2 : (if 1 ≤ l ∧ l ≤ 50 then
          some (RecommendationRequest.mk raw.user_id l) else none) = some req := h
      by_cases hb : 1 ≤ l ∧ l ≤ 50
      · rw [if_pos hb] at h2
        obtain rfl := (Option.some.inj h2).symm
        exact ⟨hu, hb.1, hb.2, fun hnone => by simp at hnone⟩
      · rw [if_neg hb] at h2
        simp at h2
  · rw [if_neg hu] at h
    simp at h

/-- Witness for C10: the omitted-limit request parses to the default
limit 10, which satisfies the bounds. -/
theorem c10_request_validation_witness :
    parseRecommendationRequest ⟨1, none⟩ = some ⟨1, 10⟩ ∧
      0 < (1 : Int) ∧ 1 ≤ (10 : Int) ∧ (10 : Int) ≤ 50 := by
  have h := c10_request_validation ⟨1, none⟩ ⟨1, 10⟩ (by decide)
  exact ⟨by decide, h.1, h.2.1, h.2.2.1⟩
